import Mathlib

/-!
# Verification of the GITPAID bounty escrow pipeline

A shallow embedding of the core of the GITPAID repository:

* `BountyContract` and its four public methods (`confirmBountyPayment`,
  `rejectBounty`, `refundDeadline`, `splitBountyPayment`) from the sCrypt
  contract source;
* the admission controller `identifyAdmissibleOutputs` from
  `BountyTopicManager`;
* the projection/lookup service (`outputAdded`, `outputSpent`,
  `outputDeleted`, `lookup`) from `BountyLookupServiceFactory`, with the
  Mongo-backed `BountyStorage` modelled as a list of records
  (`insertOne` appends, `deleteOne` removes the first match);
* a codec for the contract parameters, modelled from the spec (the
  byte-level serialization lives in the scrypt-ts library, outside the
  repository sources).

Cryptographic primitives (signature checks, hashing, output serialization,
BEEF envelope parsing) are abstracted as fields of environment structures,
so every definition stays executable once an environment is supplied.
Machine integers (`bigint` in the source) are modelled as `Int`; byte
strings as `List Nat`.
-/

/-- Bytes of a `ByteString` in the sCrypt source. -/
abbrev Bytes := List Nat

/-- `UINT_MAX = 0xffffffff` from the contract source. -/
def UINT_MAX : Int := 0xffffffff

/-- `LOCKTIME_BLOCK_HEIGHT_MARKER = 500000000` from the contract source. -/
def LOCKTIME_BLOCK_HEIGHT_MARKER : Int := 500000000

/-- `BountyContract.N_APPROVERS = 1` from the contract source. -/
def N_APPROVERS : Nat := 1

/-- Cryptographic primitives used by the contract methods, abstracted:
`checkSig`, `checkMultiSig`, `pubKey2Addr`, `hash256` and
`Utils.buildPublicKeyHashOutput` from scrypt-ts. Keys, signatures,
addresses and digests are modelled as `Nat`. -/
structure CryptoEnv where
  checkSig : Nat → Nat → Bool
  checkMultiSig : List Nat → List Nat → Bool
  pubKey2Addr : Nat → Nat
  hash256 : Bytes → Nat
  buildPublicKeyHashOutput : Nat → Int → Bytes

/-- The `@prop` fields of `BountyContract`. -/
structure BountyContract where
  creatorAddr : Nat
  repoOwnerAddr : Nat
  contributorAddr : Nat
  issueId : Bytes
  prId : Bytes
  approvers : List Nat
  deadline : Int

/-- The parts of `this.ctx` (the script evaluation context) the methods
read: `utxo.value`, `hashOutputs`, `sequence`, `locktime`. -/
structure ScriptContext where
  utxoValue : Int
  hashOutputs : Nat
  sequence : Int
  locktime : Int

/-- `BountyContract.confirmBountyPayment`: each `assert` of the method in
order; the method succeeds iff all of them hold. -/
def confirmBountyPayment (e : CryptoEnv) (c : BountyContract) (ctx : ScriptContext)
    (repoOwnerSig repoOwnerPubKey : Nat) (approverSigs : List Nat) : Bool :=
  (e.pubKey2Addr repoOwnerPubKey == c.repoOwnerAddr) &&
  e.checkSig repoOwnerSig repoOwnerPubKey &&
  e.checkMultiSig approverSigs c.approvers &&
  (e.hash256 (e.buildPublicKeyHashOutput c.contributorAddr ctx.utxoValue) == ctx.hashOutputs)

/-- `BountyContract.rejectBounty`: same signature checks as confirm, but the
committed output pays the creator back. -/
def rejectBounty (e : CryptoEnv) (c : BountyContract) (ctx : ScriptContext)
    (repoOwnerSig repoOwnerPubKey : Nat) (approverSigs : List Nat) : Bool :=
  (e.pubKey2Addr repoOwnerPubKey == c.repoOwnerAddr) &&
  e.checkSig repoOwnerSig repoOwnerPubKey &&
  e.checkMultiSig approverSigs c.approvers &&
  (e.hash256 (e.buildPublicKeyHashOutput c.creatorAddr ctx.utxoValue) == ctx.hashOutputs)

/-- `BountyContract.refundDeadline`: creator signature, `nLocktime` enabled
(`sequence < UINT_MAX`), block-height unit check, deadline reached, and the
refund output committed to the creator. -/
def refundDeadline (e : CryptoEnv) (c : BountyContract) (ctx : ScriptContext)
    (creatorSig creatorPubKey : Nat) : Bool :=
  (e.pubKey2Addr creatorPubKey == c.creatorAddr) &&
  e.checkSig creatorSig creatorPubKey &&
  decide (ctx.sequence < UINT_MAX) &&
  (if c.deadline < LOCKTIME_BLOCK_HEIGHT_MARKER then
      decide (ctx.locktime < LOCKTIME_BLOCK_HEIGHT_MARKER)
    else true) &&
  decide (ctx.locktime ≥ c.deadline) &&
  (e.hash256 (e.buildPublicKeyHashOutput c.creatorAddr ctx.utxoValue) == ctx.hashOutputs)

/-- Total of the five share percentages in `splitBountyPayment`
(`totalShares` accumulated over the whole fixed array, zero shares
included). -/
def totalShares (shares : List (Nat × Int)) : Int :=
  shares.foldl (fun acc s => acc + s.2) 0

/-- The claimed output set `splitBountyPayment` builds, as a list of
(address, amount) pairs: the first pair's output is built unconditionally,
each later pair contributes an output only when its percentage is positive;
each amount is `value * percentage / 100` with bigint (truncating)
division. -/
def claimedSplitOutputs (value : Int) (shares : List (Nat × Int)) : List (Nat × Int) :=
  match shares with
  | [] => []
  | s0 :: rest =>
      (s0.1, Int.tdiv (value * s0.2) 100) ::
        rest.filterMap fun s =>
          if 0 < s.2 then some (s.1, Int.tdiv (value * s.2) 100) else none

/-- The concatenated `outputs : ByteString` the method hashes: each claimed
output serialized by `Utils.buildPublicKeyHashOutput` and appended in
order. -/
def serializeOutputs (e : CryptoEnv) (outs : List (Nat × Int)) : Bytes :=
  (outs.map fun p => e.buildPublicKeyHashOutput p.1 p.2).flatten

/-- `BountyContract.splitBountyPayment`: signature checks, the shares must
total exactly 100, and the concatenation of the claimed outputs must hash
to the transaction's committed `hashOutputs`. -/
def splitBountyPayment (e : CryptoEnv) (c : BountyContract) (ctx : ScriptContext)
    (repoOwnerSig repoOwnerPubKey : Nat) (approverSigs : List Nat)
    (contributorShares : List (Nat × Int)) : Bool :=
  (e.pubKey2Addr repoOwnerPubKey == c.repoOwnerAddr) &&
  e.checkSig repoOwnerSig repoOwnerPubKey &&
  e.checkMultiSig approverSigs c.approvers &&
  (totalShares contributorShares == 100) &&
  (e.hash256 (serializeOutputs e (claimedSplitOutputs ctx.utxoValue contributorShares))
    == ctx.hashOutputs)

/-- C1: `confirmBountyPayment` succeeds iff the repo-owner public key hashes
to `repoOwnerAddr` and its signature checks, the `N_APPROVERS` approver
signatures pass the all-of-N multisig check against `approvers`, and the
transaction's committed output hash equals the hash of the single output
paying the full locked value to `contributorAddr` — so success implies the
signatures are valid and the sole claimed output pays `contributorAddr` in
full, enforced by hashing the claimed output set. -/
theorem confirmBountyPayment_iff (e : CryptoEnv) (c : BountyContract)
    (ctx : ScriptContext) (sig pk : Nat) (approverSigs : List Nat) :
    confirmBountyPayment e c ctx sig pk approverSigs = true ↔
      (e.pubKey2Addr pk = c.repoOwnerAddr ∧
       e.checkSig sig pk = true ∧
       e.checkMultiSig approverSigs c.approvers = true ∧
       e.hash256 (e.buildPublicKeyHashOutput c.contributorAddr ctx.utxoValue)
         = ctx.hashOutputs) := by
  simp [confirmBountyPayment, Bool.and_eq_true, and_assoc]

/-- A concrete environment for witnesses: signatures always verify, an
address is its key plus 100, a digest is the byte length, and a serialized
output is the two-element list [address, amount]. -/
def testEnv : CryptoEnv where
  checkSig := fun _ _ => true
  checkMultiSig := fun _ _ => true
  pubKey2Addr := fun k => k + 100
  hash256 := fun bs => bs.length
  buildPublicKeyHashOutput := fun a v => [a, v.toNat]

/-- A concrete contract instance for witnesses: creator key 5 (address
105), repo owner key 7 (address 107). -/
def testContract : BountyContract where
  creatorAddr := 105
  repoOwnerAddr := 107
  contributorAddr := 42
  issueId := [1, 2]
  prId := [3, 4]
  approvers := [7]
  deadline := 500

/-- C2: with a valid creator signature and the refund output (full value to
the creator) committed in the transaction's output hash, `refundDeadline`
succeeds iff the absolute locktime is at least `deadline`, the sequence
field is strictly below its maximum (relative timelock not disabled), and
locktime and deadline lie on the same side of
`LOCKTIME_BLOCK_HEIGHT_MARKER` (same unit space); any earlier locktime
fails. -/
theorem refundDeadline_iff (e : CryptoEnv) (c : BountyContract)
    (ctx : ScriptContext) (sig pk : Nat)
    (haddr : e.pubKey2Addr pk = c.creatorAddr)
    (hsig : e.checkSig sig pk = true)
    (hout : e.hash256 (e.buildPublicKeyHashOutput c.creatorAddr ctx.utxoValue)
      = ctx.hashOutputs) :
    refundDeadline e c ctx sig pk = true ↔
      (ctx.locktime ≥ c.deadline ∧
       ctx.sequence < UINT_MAX ∧
       (c.deadline < LOCKTIME_BLOCK_HEIGHT_MARKER ↔
         ctx.locktime < LOCKTIME_BLOCK_HEIGHT_MARKER)) := by
  by_cases hd : c.deadline < LOCKTIME_BLOCK_HEIGHT_MARKER <;>
    simp [refundDeadline, haddr, hsig, hout, hd, Bool.and_eq_true,
      decide_eq_true_iff, UINT_MAX, LOCKTIME_BLOCK_HEIGHT_MARKER] at hd ⊢ <;>
    omega

/-- Witness for C2: a concrete refund spend at locktime 1000 against
deadline 500 (both in block-height space), sequence 0. -/
theorem refundDeadline_iff_witness :
    refundDeadline testEnv testContract ⟨1000, 2, 0, 1000⟩ 9 5 = true :=
  (refundDeadline_iff testEnv testContract ⟨1000, 2, 0, 1000⟩ 9 5
    rfl rfl rfl).mpr (by decide)

/-- C3: with valid repo-owner and approver signatures and the claimed
split outputs committed in the transaction's output hash,
`splitBountyPayment` succeeds iff the supplied percentages sum to exactly
100; any other sum is rejected. -/
theorem splitBountyPayment_sum_iff (e : CryptoEnv) (c : BountyContract)
    (ctx : ScriptContext) (sig pk : Nat) (approverSigs : List Nat)
    (shares : List (Nat × Int))
    (haddr : e.pubKey2Addr pk = c.repoOwnerAddr)
    (hsig : e.checkSig sig pk = true)
    (hmulti : e.checkMultiSig approverSigs c.approvers = true)
    (hout : e.hash256 (serializeOutputs e (claimedSplitOutputs ctx.utxoValue shares))
      = ctx.hashOutputs) :
    splitBountyPayment e c ctx sig pk approverSigs shares = true ↔
      totalShares shares = 100 := by
  simp [splitBountyPayment, haddr, hsig, hmulti, hout, Bool.and_eq_true]

/-- A five-pair share list splitting 60/40 between addresses 1 and 2. -/
def shares6040 : List (Nat × Int) := [(1, 60), (2, 40), (3, 0), (4, 0), (5, 0)]

/-- Witness for C3: the 60/40 split of 1000 satoshis succeeds with sum
100. -/
theorem splitBountyPayment_sum_iff_witness :
    splitBountyPayment testEnv testContract ⟨1000, 4, 0, 0⟩ 9 7 [8] shares6040 = true :=
  (splitBountyPayment_sum_iff testEnv testContract ⟨1000, 4, 0, 0⟩ 9 7 [8] shares6040
    rfl rfl rfl rfl).mpr (by decide)

/-- A share list whose first pair has percentage zero and whose second
carries the full 100 percent. -/
def sharesZeroFirst : List (Nat × Int) := [(10, 0), (20, 100), (30, 0), (40, 0), (50, 0)]

/-- Counterexample for C4: with the first supplied pair at percentage zero,
`splitBountyPayment` still succeeds, yet the claimed output set contains an
output for that zero-percentage pair (amount 0 to address 10): it has two
outputs while only one supplied pair has non-zero percentage, refuting
"exactly one output per supplied pair with non-zero percentage". -/
theorem splitBountyPayment_zero_first_pair :
    splitBountyPayment testEnv testContract ⟨1000, 4, 0, 0⟩ 9 7 [8] sharesZeroFirst = true ∧
    (10, 0) ∈ claimedSplitOutputs 1000 sharesZeroFirst ∧
    (claimedSplitOutputs 1000 sharesZeroFirst).length = 2 ∧
    (sharesZeroFirst.filter fun s => s.2 != 0).length = 1 := by
  refine ⟨?_, by decide, by decide, by decide⟩
  decide

/-- Emitting an output for exactly the positive-percentage pairs is the
same as filtering to the positive pairs and mapping each to its payout. -/
lemma filterMap_positive_shares (v : Int) (ss : List (Nat × Int)) :
    (ss.filterMap fun s => if 0 < s.2 then some (s.1, Int.tdiv (v * s.2) 100) else none) =
      ((ss.filter fun s => 0 < s.2).map fun s => (s.1, Int.tdiv (v * s.2) 100)) := by
  induction ss with
  | nil => rfl
  | cons s ss ih =>
      by_cases hpos : 0 < s.2 <;>
        simp [List.filterMap_cons, List.filter_cons, hpos, ih]

/-- C4 amended: on a successful `splitBountyPayment`, the claimed output
set is the first pair's output (built even when its percentage is zero)
followed by one output per later pair with positive percentage, each
receiving the truncated `value * percentage / 100`; the aggregate claimed
outputs are hashed against the transaction's committed output hash; in
particular shares [(a,60),(b,40)] on a locked value of 1000 yield exactly
the two outputs (a,600) and (b,400). -/
theorem splitBountyPayment_outputs (e : CryptoEnv) (c : BountyContract)
    (ctx : ScriptContext) (sig pk : Nat) (approverSigs : List Nat)
    (s0 : Nat × Int) (rest : List (Nat × Int))
    (haddr : e.pubKey2Addr pk = c.repoOwnerAddr)
    (hsig : e.checkSig sig pk = true)
    (hmulti : e.checkMultiSig approverSigs c.approvers = true)
    (hsum : totalShares (s0 :: rest) = 100)
    (hout : e.hash256 (serializeOutputs e (claimedSplitOutputs ctx.utxoValue (s0 :: rest)))
      = ctx.hashOutputs) :
    splitBountyPayment e c ctx sig pk approverSigs (s0 :: rest) = true ∧
    claimedSplitOutputs ctx.utxoValue (s0 :: rest) =
      ((s0 :: rest.filter fun s => 0 < s.2).map
        fun s => (s.1, Int.tdiv (ctx.utxoValue * s.2) 100)) ∧
    (∀ a b : Nat, claimedSplitOutputs 1000 [(a, 60), (b, 40), (0, 0), (0, 0), (0, 0)]
      = [(a, 600), (b, 400)]) := by
  refine ⟨?_, ?_, ?_⟩
  · simp [splitBountyPayment, haddr, hsig, hmulti, hsum, hout]
  · simp only [claimedSplitOutputs, List.map_cons]
    congr 1
    exact filterMap_positive_shares ctx.utxoValue rest
  · intro a b
    rfl

/-- Witness for C4 amended: the 60/40 split of 1000 satoshis through the
amended theorem. -/
theorem splitBountyPayment_outputs_witness :
    splitBountyPayment testEnv testContract ⟨1000, 4, 0, 0⟩ 9 7 [8] shares6040 = true ∧
    claimedSplitOutputs 1000 shares6040 =
      (((1, (60 : Int)) :: ([(2, (40 : Int)), (3, 0), (4, 0), (5, 0)].filter fun s => 0 < s.2)).map
        fun s => (s.1, Int.tdiv (1000 * s.2) 100)) :=
  ⟨(splitBountyPayment_outputs testEnv testContract ⟨1000, 4, 0, 0⟩ 9 7 [8]
      (1, 60) [(2, 40), (3, 0), (4, 0), (5, 0)] rfl rfl rfl (by decide) rfl).1,
   (splitBountyPayment_outputs testEnv testContract ⟨1000, 4, 0, 0⟩ 9 7 [8]
      (1, 60) [(2, 40), (3, 0), (4, 0), (5, 0)] rfl rfl rfl (by decide) rfl).2.1⟩

/-- The fields of a decoded contract instance the overlay components read:
the `@prop` parameters plus the identity binding (`creatorIdentityKey`,
`creatorSignature`) accessed by `BountyTopicManager`. -/
structure ContractInstance where
  creatorAddr : String
  repoOwnerAddr : String
  contributorAddr : String
  issueId : Bytes
  prId : Bytes
  approvers : List Nat
  deadline : Int
  creatorIdentityKey : Bytes
  creatorSignature : Bytes

/-- External primitives of the overlay layer, abstracted:
`Transaction.fromBEEF` (returning the locking scripts of the parsed
transaction's outputs, or failing), `BountyContract.fromLockingScript`
(returning a decoded instance, or throwing), the `anyoneWallet`
signature verification under the fixed protocol/key identifiers, and the
`Utils.toHex(Utils.toArray(-, 'utf8'))` string conversion. -/
structure OverlayEnv where
  fromBEEF : Bytes → Option (List Bytes)
  fromLockingScript : Bytes → Option ContractInstance
  verifySignature : Bytes → Bytes → Bool
  toHexUtf8 : Bytes → String

/-- The per-output body of the admission loop: decode the locking script
as a `BountyContract` and verify the creator signature against the creator
identity key; any failure (decode throw or invalid signature) means the
output is not admitted, without affecting any other output. -/
def admitOutput (e : OverlayEnv) (script : Bytes) : Bool :=
  match e.fromLockingScript script with
  | none => false
  | some b => e.verifySignature b.creatorIdentityKey b.creatorSignature

/-- The admission loop over `parsedTransaction.outputs.entries()` starting
at index `k`: push the index of each output whose body succeeds. -/
def admittedFrom (e : OverlayEnv) (k : Nat) : List Bytes → List Nat
  | [] => []
  | o :: rest => (if admitOutput e o then [k] else []) ++ admittedFrom e (k + 1) rest

/-- The return type of `identifyAdmissibleOutputs`. -/
structure AdmittanceInstructions where
  outputsToAdmit : List Nat
  coinsToRetain : List Nat
deriving DecidableEq

/-- `BountyTopicManager.identifyAdmissibleOutputs`: parse the BEEF
envelope (a failure there is rethrown to the caller), run the admission
loop over the outputs, and return the admitted indices together with the
unchanged `previousCoins`. -/
def identifyAdmissibleOutputs (e : OverlayEnv) (beef : Bytes)
    (previousCoins : List Nat) : Except String AdmittanceInstructions :=
  match e.fromBEEF beef with
  | none => Except.error ("BountyTopicManager: Error identifying admissible outputs")
  | some outputs => Except.ok ⟨admittedFrom e 0 outputs, previousCoins⟩

/-- An index is produced by the admission loop iff it points at an output
of the transaction whose own admission body succeeds. -/
lemma mem_admittedFrom (e : OverlayEnv) (outs : List Bytes) (k i : Nat) :
    i ∈ admittedFrom e k outs ↔
      ∃ j o, outs.get? j = some o ∧ i = k + j ∧ admitOutput e o = true := by
  induction outs generalizing k with
  | nil => simp [admittedFrom]
  | cons o rest ih =>
      simp only [admittedFrom, List.mem_append]
      constructor
      · intro h
        rcases h with h | h
        · by_cases ha : admitOutput e o
          · simp [ha] at h
            exact ⟨0, o, rfl, by omega, ha⟩
          · simp [ha] at h
        · obtain ⟨j, o', hj, hi, ha⟩ := (ih (k + 1)).1 h
          exact ⟨j + 1, o', by simpa using hj, by omega, ha⟩
      · rintro ⟨j, o', hj, hi, ha⟩
        cases j with
        | zero =>
            left
            simp only [List.get?_cons_zero, Option.some.injEq] at hj
            subst hj
            simp [ha, hi]
        | succ j =>
            right
            exact (ih (k + 1)).2 ⟨j, o', by simpa using hj, by omega, ha⟩

/-- Every index the admission loop produces is at least the start index. -/
lemma admittedFrom_le (e : OverlayEnv) (outs : List Bytes) (k : Nat) :
    ∀ i ∈ admittedFrom e k outs, k ≤ i := by
  intro i hi
  obtain ⟨j, o, _, hij, _⟩ := (mem_admittedFrom e outs k i).1 hi
  omega

/-- The admission loop produces strictly increasing indices. -/
lemma admittedFrom_pairwise (e : OverlayEnv) (outs : List Bytes) (k : Nat) :
    (admittedFrom e k outs).Pairwise (· < ·) := by
  induction outs generalizing k with
  | nil => simp [admittedFrom]
  | cons o rest ih =>
      rw [admittedFrom, List.pairwise_append]
      refine ⟨?_, ih (k + 1), ?_⟩
      · by_cases ha : admitOutput e o <;> simp [ha]
      · intro a ha' b hb
        have hk : k + 1 ≤ b := admittedFrom_le e rest (k + 1) b hb
        by_cases ha : admitOutput e o <;> simp [ha] at ha'
        omega

/-- C5: whenever the transaction envelope parses into the output list
`outs`, `identifyAdmissibleOutputs` returns admitted indices that are
strictly increasing (so they follow the original output order), an index
is admitted iff its own output decodes and carries a valid creator
signature, and the verdict for an index `j` depends only on output `j`:
for any other output list agreeing at position `j`, the loop admits `j`
in one iff it admits `j` in the other — a decode or signature failure on
some output `k ≠ j` neither aborts nor changes the verdict at `j`. -/
theorem identifyAdmissibleOutputs_order_independent (e : OverlayEnv)
    (beef : Bytes) (prev : List Nat) (outs : List Bytes)
    (h : e.fromBEEF beef = some outs) :
    ∃ ins, identifyAdmissibleOutputs e beef prev = Except.ok ins ∧
      ins.outputsToAdmit.Pairwise (· < ·) ∧
      (∀ j, j ∈ ins.outputsToAdmit ↔
        ∃ o, outs.get? j = some o ∧ admitOutput e o = true) ∧
      (∀ outs2 : List Bytes, ∀ j, outs2.get? j = outs.get? j →
        (j ∈ admittedFrom e 0 outs2 ↔ j ∈ ins.outputsToAdmit)) := by
  refine ⟨⟨admittedFrom e 0 outs, prev⟩, ?_, admittedFrom_pairwise e outs 0, ?_, ?_⟩
  · simp [identifyAdmissibleOutputs, h]
  · intro j
    rw [mem_admittedFrom]
    constructor
    · rintro ⟨j1, o, hj1, hij, ha⟩
      have hj1j : j1 = j := by omega
      rw [hj1j] at hj1
      exact ⟨o, hj1, ha⟩
    · rintro ⟨o, hj, ha⟩
      exact ⟨j, o, hj, by omega, ha⟩
  · intro outs2 j hagree
    rw [mem_admittedFrom, mem_admittedFrom]
    constructor
    · rintro ⟨j1, o, hj1, hij, ha⟩
      have hj1j : j1 = j := by omega
      rw [hj1j, hagree] at hj1
      exact ⟨j, o, hj1, by omega, ha⟩
    · rintro ⟨j1, o, hj1, hij, ha⟩
      have hj1j : j1 = j := by omega
      rw [hj1j, ← hagree] at hj1
      exact ⟨j, o, hj1, by omega, ha⟩

/-- A concrete overlay environment for witnesses: the envelope [0] parses
into three outputs, the script [1] decodes to an instance whose identity
key verifies, the script [2] fails to decode, and the script [3] decodes
but its signature does not verify. -/
def testOverlayEnv : OverlayEnv where
  fromBEEF := fun b => if b = [0] then some [[1], [2], [3]] else none
  fromLockingScript := fun s =>
    if s = [2] then none
    else some ⟨"c1", "r1", "p1", [], [], [7], 500, s, [9]⟩
  verifySignature := fun key _ => key == [1]
  toHexUtf8 := fun bs => toString bs.length

/-- Witness for C5: on the concrete envelope with a good output, a
non-decoding output and a badly signed output, the theorem applies and
yields the full conclusion. -/
theorem identifyAdmissibleOutputs_order_independent_witness :
    ∃ ins, identifyAdmissibleOutputs testOverlayEnv [0] [7] = Except.ok ins ∧
      ins.outputsToAdmit.Pairwise (· < ·) ∧
      (∀ j, j ∈ ins.outputsToAdmit ↔
        ∃ o, [[1], [2], [3]].get? j = some o ∧ admitOutput testOverlayEnv o = true) ∧
      (∀ outs2 : List Bytes, ∀ j, outs2.get? j = [[1], [2], [3]].get? j →
        (j ∈ admittedFrom testOverlayEnv 0 outs2 ↔ j ∈ ins.outputsToAdmit)) :=
  identifyAdmissibleOutputs_order_independent testOverlayEnv [0] [7]
    [[1], [2], [3]] rfl

/-- C10: whenever `identifyAdmissibleOutputs` returns (the envelope
parsed), the returned `coinsToRetain` is exactly the `previousCoins`
argument, unchanged, however many outputs were admitted. -/
theorem identifyAdmissibleOutputs_retains_previousCoins (e : OverlayEnv)
    (beef : Bytes) (prev : List Nat) (ins : AdmittanceInstructions)
    (h : identifyAdmissibleOutputs e beef prev = Except.ok ins) :
    ins.coinsToRetain = prev := by
  unfold identifyAdmissibleOutputs at h
  cases hb : e.fromBEEF beef with
  | none => simp [hb] at h
  | some outs =>
      simp only [hb] at h
      cases h
      rfl

/-- Witness for C10: the concrete envelope returns with coinsToRetain
exactly the supplied [7]. -/
theorem identifyAdmissibleOutputs_retains_previousCoins_witness :
    (AdmittanceInstructions.mk [0] [7]).coinsToRetain = [7] :=
  identifyAdmissibleOutputs_retains_previousCoins testOverlayEnv [0] [7]
    ⟨[0], [7]⟩ rfl

/-- A row of the `BountyRecords` collection (`BountyRecord` in
`BountyStorage`); `createdAt` holds the insertion time. -/
structure BountyRecord where
  txid : String
  outputIndex : Nat
  value : Int
  creatorAddr : String
  repoOwnerAddr : String
  contributorAddr : String
  issueId : String
  prId : String
  deadline : Int
  creatorIdentityKey : String
  status : String
  createdAt : Nat
deriving DecidableEq

/-- The Mongo collection as a list of rows, in insertion order. -/
abbrev Store := List BountyRecord

/-- The `{ txid, outputIndex }` filter used by `deleteRecord`,
`updateStatus` and `getBountyDetails`. -/
def matchesRef (t : String) (i : Nat) (r : BountyRecord) : Bool :=
  r.txid == t && r.outputIndex == i

/-- `BountyStorage.storeRecord`: `insertOne` of a new row with
`status: 'active'` and `createdAt: new Date()`. -/
def storeRecord (s : Store) (txid : String) (outputIndex : Nat) (value : Int)
    (creatorAddr repoOwnerAddr contributorAddr : String) (issueId prId : String)
    (deadline : Int) (creatorIdentityKey : String) (now : Nat) : Store :=
  s ++ [⟨txid, outputIndex, value, creatorAddr, repoOwnerAddr, contributorAddr,
    issueId, prId, deadline, creatorIdentityKey, "active", now⟩]

/-- `BountyStorage.deleteRecord`: `deleteOne({ txid, outputIndex })`
removes the first matching row and is a no-op when none matches. -/
def deleteRecord : Store → String → Nat → Store
  | [], _, _ => []
  | r :: rest, t, i =>
      if matchesRef t i r then rest else r :: deleteRecord rest t i

/-- `BountyLookupService.outputAdded`: ignore foreign topics; decode the
locking script (a decode failure is caught, logged and dropped); on
success insert exactly one record via `storeRecord` — with the literal
`const value = 0` of the source standing in for the locked amount. -/
def outputAdded (e : OverlayEnv) (s : Store) (txid : String) (outputIndex : Nat)
    (outputScript : Bytes) (topic : String) (now : Nat) : Store :=
  if topic ≠ "tm_bounty" then s
  else
    match e.fromLockingScript outputScript with
    | none => s
    | some b =>
        storeRecord s txid outputIndex 0 b.creatorAddr b.repoOwnerAddr
          b.contributorAddr (e.toHexUtf8 b.issueId) (e.toHexUtf8 b.prId)
          b.deadline (e.toHexUtf8 b.creatorIdentityKey) now

/-- `BountyLookupService.outputSpent`: ignore foreign topics, otherwise
delete the record for the reference (errors are caught and swallowed). -/
def outputSpent (s : Store) (txid : String) (outputIndex : Nat)
    (topic : String) : Store :=
  if topic ≠ "tm_bounty" then s else deleteRecord s txid outputIndex

/-- `BountyLookupService.outputDeleted`: ignore foreign topics, otherwise
delete the record for the reference. -/
def outputDeleted (s : Store) (txid : String) (outputIndex : Nat)
    (topic : String) : Store :=
  if topic ≠ "tm_bounty" then s else deleteRecord s txid outputIndex

/-- Number of rows matching a `{ txid, outputIndex }` reference. -/
def matchCount (s : Store) (t : String) (i : Nat) : Nat :=
  (s.filter (matchesRef t i)).length

/-- Deleting a reference removes exactly one matching row when one
exists. -/
lemma matchCount_deleteRecord (s : Store) (t : String) (i : Nat) :
    matchCount (deleteRecord s t i) t i = matchCount s t i - 1 := by
  induction s with
  | nil => rfl
  | cons r rest ih =>
      by_cases hr : matchesRef t i r
      · simp [deleteRecord, matchCount, List.filter_cons, hr]
      · simp [deleteRecord, matchCount, List.filter_cons, hr] at ih ⊢
        exact ih

/-- Deleting a reference with no matching row is a silent no-op. -/
lemma deleteRecord_eq_of_matchCount_zero (s : Store) (t : String) (i : Nat)
    (h : matchCount s t i = 0) : deleteRecord s t i = s := by
  induction s with
  | nil => rfl
  | cons r rest ih =>
      by_cases hr : matchesRef t i r
      · exfalso
        simp [matchCount, List.filter_cons, hr] at h
      · have h2 : matchCount rest t i = 0 := by
          simpa [matchCount, List.filter_cons, hr] using h
        simp [deleteRecord, hr, ih h2]

/-- A reference with zero matching rows is absent from the store. -/
lemma not_matchesRef_of_matchCount_zero (s : Store) (t : String) (i : Nat)
    (h : matchCount s t i = 0) : ∀ r ∈ s, matchesRef t i r = false := by
  intro r hr
  by_contra hf
  have hmem : r ∈ s.filter (matchesRef t i) :=
    List.mem_filter.2 ⟨hr, by simpa using hf⟩
  have : s.filter (matchesRef t i) = [] := List.length_eq_zero.1 h
  rw [this] at hmem
  exact (List.not_mem_nil r) hmem

/-- C7 (divergence evidence): for every outputAdded event on the
recognized topic whose script decodes, exactly one record is inserted for
the reference, with status "active" — but its `value` field is the
source's literal 0, not the output's locked amount: the locked amount is
never read (it is not even available to `outputAdded`), so any bounty
with a positive locked value is indexed with value 0. -/
theorem outputAdded_inserts_value_zero (e : OverlayEnv) (s : Store)
    (txid : String) (outputIndex : Nat) (script : Bytes) (topic : String)
    (now : Nat) (b : ContractInstance)
    (htopic : topic = "tm_bounty")
    (hdec : e.fromLockingScript script = some b) :
    outputAdded e s txid outputIndex script topic now =
      s ++ [⟨txid, outputIndex, 0, b.creatorAddr, b.repoOwnerAddr,
        b.contributorAddr, e.toHexUtf8 b.issueId, e.toHexUtf8 b.prId,
        b.deadline, e.toHexUtf8 b.creatorIdentityKey, "active", now⟩] := by
  simp [outputAdded, htopic, hdec, storeRecord]

/-- Witness for C7: indexing the decodable script [1] (a bounty that can
lock any positive amount) stores a single active record whose value field
is 0. -/
theorem outputAdded_inserts_value_zero_witness :
    outputAdded testOverlayEnv [] "T" 0 [1] "tm_bounty" 11 =
      [⟨"T", 0, 0, "c1", "r1", "p1", testOverlayEnv.toHexUtf8 [],
        testOverlayEnv.toHexUtf8 [], 500, testOverlayEnv.toHexUtf8 [1],
        "active", 11⟩] :=
  outputAdded_inserts_value_zero testOverlayEnv [] "T" 0 [1] "tm_bounty" 11
    ⟨"c1", "r1", "p1", [], [], [7], 500, [1], [9]⟩ rfl rfl

/-- C9: on a store holding at most one row for the reference (the
projection keys records by UTXORef), delivering `outputSpent` twice on the
recognized topic leaves the same state as delivering it once — after the
first delivery the reference is absent, so the second delete is a silent
no-op — and the same holds for the output-removed notification
(`outputDeleted`). -/
theorem outputSpent_idempotent (s : Store) (t : String) (i : Nat)
    (h : matchCount s t i ≤ 1) :
    outputSpent (outputSpent s t i ("tm_bounty")) t i "tm_bounty"
        = outputSpent s t i ("tm_bounty") ∧
      (∀ r ∈ outputSpent s t i ("tm_bounty"), matchesRef t i r = false) ∧
      outputDeleted (outputDeleted s t i ("tm_bounty")) t i "tm_bounty"
        = outputDeleted s t i ("tm_bounty") := by
  have hzero : matchCount (deleteRecord s t i) t i = 0 := by
    have := matchCount_deleteRecord s t i
    omega
  have hnoop : deleteRecord (deleteRecord s t i) t i = deleteRecord s t i :=
    deleteRecord_eq_of_matchCount_zero _ t i hzero
  refine ⟨?_, ?_, ?_⟩
  · simpa [outputSpent] using hnoop
  · intro r hr
    have hr' : r ∈ deleteRecord s t i := by simpa [outputSpent] using hr
    exact not_matchesRef_of_matchCount_zero _ t i hzero r hr'
  · simpa [outputDeleted] using hnoop

/-- A store holding exactly one active record for reference ("T", 0). -/
def testStore : Store :=
  [⟨"T", 0, 0, "c1", "r1", "p1", "0", "0", 500, "1", "active", 11⟩]

/-- Witness for C9: on the singleton store for ("T", 0), a second
outputSpent delivery changes nothing and the reference is gone. -/
theorem outputSpent_idempotent_witness :
    outputSpent (outputSpent testStore ("T") 0 ("tm_bounty")) "T" 0 "tm_bounty"
        = outputSpent testStore ("T") 0 ("tm_bounty") ∧
      (∀ r ∈ outputSpent testStore ("T") 0 ("tm_bounty"), matchesRef ("T") 0 r = false) ∧
      outputDeleted (outputDeleted testStore ("T") 0 ("tm_bounty")) "T" 0 "tm_bounty"
        = outputDeleted testStore ("T") 0 ("tm_bounty") :=
  outputSpent_idempotent testStore ("T") 0 (by decide)

/-- A `{ txid, outputIndex }` reference as projected by the storage
finders (`UTXOReference`). -/
abbrev UTXORef := String × Nat

/-- `BountyStorage.findAllActive`. -/
def findAllActive (s : Store) : List UTXORef :=
  (s.filter fun r => r.status == "active").map fun r => (r.txid, r.outputIndex)

/-- `BountyStorage.findByStatus`. -/
def findByStatus (s : Store) (status : String) : List UTXORef :=
  (s.filter fun r => r.status == status).map fun r => (r.txid, r.outputIndex)

/-- `BountyStorage.findByIssueId`. -/
def findByIssueId (s : Store) (issueId : String) : List UTXORef :=
  (s.filter fun r => r.issueId == issueId).map fun r => (r.txid, r.outputIndex)

/-- `BountyStorage.findByPrId`. -/
def findByPrId (s : Store) (prId : String) : List UTXORef :=
  (s.filter fun r => r.prId == prId).map fun r => (r.txid, r.outputIndex)

/-- `BountyStorage.findByCreator`. -/
def findByCreator (s : Store) (creatorIdentityKey : String) : List UTXORef :=
  (s.filter fun r => r.creatorIdentityKey == creatorIdentityKey).map
    fun r => (r.txid, r.outputIndex)

/-- `BountyStorage.findByRepoOwner`. -/
def findByRepoOwner (s : Store) (repoOwnerAddr : String) : List UTXORef :=
  (s.filter fun r => r.repoOwnerAddr == repoOwnerAddr).map
    fun r => (r.txid, r.outputIndex)

/-- `BountyStorage.findByContributor`. -/
def findByContributor (s : Store) (contributorAddr : String) : List UTXORef :=
  (s.filter fun r => r.contributorAddr == contributorAddr).map
    fun r => (r.txid, r.outputIndex)

/-- `BountyStorage.getBountyDetails`: `findOne` returns the first matching
row, or nothing. -/
def getBountyDetails (s : Store) (txid : String) (outputIndex : Nat) :
    Option BountyRecord :=
  (s.filter (matchesRef txid outputIndex)).head?

/-- `BountyStorage.findExpiredBounties`: active rows with deadline
strictly below the supplied cursor. -/
def findExpiredBounties (s : Store) (currentValue : Int) : List UTXORef :=
  (s.filter fun r => decide (r.deadline < currentValue) && r.status == "active").map
    fun r => (r.txid, r.outputIndex)

/-- The loosely-typed query object of `BountyLookupService.lookup`: every
recognized field optional. -/
structure BountyQuery where
  findAll : Option Bool := none
  status : Option String := none
  issueId : Option String := none
  prId : Option String := none
  creatorIdentityKey : Option String := none
  repoOwnerAddr : Option String := none
  contributorAddr : Option String := none
  txid : Option String := none
  outputIndex : Option Nat := none
  isExpired : Option Bool := none
  currentTimestamp : Option Int := none
deriving DecidableEq

/-- `LookupQuestion`: the service name and the (possibly absent) query
object. -/
structure LookupQuestion where
  service : String
  query : Option BountyQuery

/-- Results the lookup call can produce: a reference list from a finder, a
full record from the by-ref lookup, or the literal empty object the code
returns both for a by-ref miss and from its catch-all handler. -/
inductive LookupResult
  | refs (l : List UTXORef)
  | record (r : BountyRecord)
  | emptyObj
deriving DecidableEq

/-- JavaScript truthiness of an optional string field: absent and the
empty string are falsy. -/
def truthyStr (o : Option String) : Bool :=
  match o with
  | none => false
  | some s => !(s == "")

/-- JavaScript truthiness of an optional numeric field: absent and zero
are falsy. -/
def truthyInt (o : Option Int) : Bool :=
  match o with
  | none => false
  | some n => !(n == 0)

/-- The body of the `try` block in `BountyLookupService.lookup`: the
sequential `if` dispatch over query fields, ending in the internal
`throw new Error('Invalid query parameters')` when no field matched. -/
def lookupInner (s : Store) (q : BountyQuery) : Except String LookupResult :=
  if q.findAll == some true then
    .ok (.refs (findAllActive s))
  else if truthyStr q.status then
    .ok (.refs (findByStatus s (q.status.getD (""))))
  else if truthyStr q.issueId then
    .ok (.refs (findByIssueId s (q.issueId.getD (""))))
  else if truthyStr q.prId then
    .ok (.refs (findByPrId s (q.prId.getD (""))))
  else if truthyStr q.creatorIdentityKey then
    .ok (.refs (findByCreator s (q.creatorIdentityKey.getD (""))))
  else if truthyStr q.repoOwnerAddr then
    .ok (.refs (findByRepoOwner s (q.repoOwnerAddr.getD (""))))
  else if truthyStr q.contributorAddr then
    .ok (.refs (findByContributor s (q.contributorAddr.getD (""))))
  else if truthyStr q.txid && q.outputIndex.isSome then
    match getBountyDetails s (q.txid.getD ("")) (q.outputIndex.getD 0) with
    | none => .ok .emptyObj
    | some r => .ok (.record r)
  else if (q.isExpired == some true) && truthyInt q.currentTimestamp then
    .ok (.refs (findExpiredBounties s (q.currentTimestamp.getD 0)))
  else
    .error ("Invalid query parameters")

/-- `BountyLookupService.lookup`: an absent query and a wrong service name
are thrown before the `try` block and escape to the caller
(`Except.error`); everything thrown inside the `try` block — including the
unrecognized-shape throw — is caught and answered with the empty object. -/
def lookup (s : Store) (question : LookupQuestion) :
    Except String LookupResult :=
  match question.query with
  | none => .error ("A valid query must be provided")
  | some q =>
      if question.service ≠ "ls_bounty" then
        .error ("Lookup service not supported")
      else
        match lookupInner s q with
        | .error _ => .ok .emptyObj
        | .ok r => .ok r

/-- Counterexample for C8: the call with an empty (absent) query does not
yield a structured error — it is an exception escaping the boundary
(`Except.error`) — and the call with a present query matching no
recognized variant is answered with the plain empty object as a normal
successful result, identical to the by-ref not-found answer; no structured
InvalidQuery error value exists in the code's result repertoire. -/
theorem lookup_invalidQuery_refuted :
    lookup [] ⟨"ls_bounty", none⟩ = .error ("A valid query must be provided") ∧
    lookup [] ⟨"ls_bounty", some {}⟩ = .ok .emptyObj ∧
    lookup [] ⟨"ls_bounty", some { txid := some ("T"), outputIndex := some 0 }⟩
      = .ok .emptyObj := by
  refine ⟨rfl, rfl, rfl⟩

/-- C8 amended: an absent query is rejected by an exception that escapes
the lookup boundary, and a present query whose shape matches none of the
recognized variants is caught internally (the internal 'Invalid query
parameters' throw) and surfaced as a normal successful empty-object
result — indistinguishable from the by-ref not-found answer — rather than
as a structured InvalidQuery error. -/
theorem lookup_unrecognized_shape (s : Store) (question : LookupQuestion) :
    (question.query = none →
      lookup s question = .error ("A valid query must be provided")) ∧
    (∀ q, question.query = some q → question.service = "ls_bounty" →
      lookupInner s q = .error ("Invalid query parameters") →
      lookup s question = .ok .emptyObj) := by
  constructor
  · intro h
    simp [lookup, h]
  · intro q hq hs hinner
    simp [lookup, hq, hs, hinner]

/-- Witness for C8 amended: on the empty store, the absent query escapes
as an exception and the all-fields-absent query shape returns the empty
object. -/
theorem lookup_unrecognized_shape_witness :
    lookup [] ⟨"ls_bounty", none⟩ = .error ("A valid query must be provided") ∧
    lookup [] ⟨"ls_bounty", some {}⟩ = .ok .emptyObj :=
  ⟨(lookup_unrecognized_shape [] ⟨"ls_bounty", none⟩).1 rfl,
   (lookup_unrecognized_shape [] ⟨"ls_bounty", some {}⟩).2 {} rfl rfl rfl⟩

/-- The constructor parameters of `BountyContract` as the codec sees them:
three fixed-width address hashes, two opaque byte strings, the fixed-size
approver key list, and the 64-bit deadline. -/
structure BountyParams where
  creatorAddr : Bytes
  repoOwnerAddr : Bytes
  contributorAddr : Bytes
  issueId : Bytes
  prId : Bytes
  approvers : List Bytes
  deadline : Nat
deriving DecidableEq

/-- Validity of a parameter set for the codec: 20-byte addresses, byte
strings short enough for a one-byte length prefix, exactly `N_APPROVERS`
approver keys of 33 bytes, and a deadline fitting 64 bits. -/
def validParams (p : BountyParams) : Bool :=
  (p.creatorAddr.length == 20) && (p.repoOwnerAddr.length == 20) &&
  (p.contributorAddr.length == 20) &&
  decide (p.issueId.length ≤ 255) && decide (p.prId.length ≤ 255) &&
  (p.approvers.length == N_APPROVERS) &&
  p.approvers.all (fun a => a.length == 33) &&
  decide (p.deadline < 256 ^ 8)

/-- Little-endian encoding of a number into a fixed count of bytes. -/
def natToBytesLE : Nat → Nat → Bytes
  | 0, _ => []
  | k + 1, n => n % 256 :: natToBytesLE k (n / 256)

/-- Little-endian decoding of a byte list back into a number. -/
def bytesToNatLE : Bytes → Nat
  | [] => 0
  | b :: bs => b + 256 * bytesToNatLE bs

/-- Modelled from the spec: the byte-level script serialization of the
contract parameters is performed by the scrypt-ts library
(`SmartContract` plus the compiled artifact), which is not part of the
repository sources; the spec describes it as a fixed binary script layout
over the constructor parameters. `encode` lays out the three fixed-width
addresses, the two length-prefixed byte strings, the `N_APPROVERS`
fixed-width approver keys, and the 64-bit deadline. -/
def encode (p : BountyParams) : Bytes :=
  p.creatorAddr ++ (p.repoOwnerAddr ++ (p.contributorAddr ++
    ((p.issueId.length :: p.issueId) ++ ((p.prId.length :: p.prId) ++
      (p.approvers.flatten ++ natToBytesLE 8 p.deadline)))))

/-- Read a fixed number of bytes, failing on a short input. -/
def readBytes (k : Nat) (s : Bytes) : Option (Bytes × Bytes) :=
  if k ≤ s.length then some (s.take k, s.drop k) else none

/-- Read a one-byte length prefix and then that many bytes. -/
def readVarBytes (s : Bytes) : Option (Bytes × Bytes) :=
  match s with
  | [] => none
  | n :: rest => readBytes n rest

/-- Read a fixed count of 33-byte approver keys. -/
def readKeys : Nat → Bytes → Option (List Bytes × Bytes)
  | 0, s => some ([], s)
  | k + 1, s => do
      let (a, s1) ← readBytes 33 s
      let (rest, s2) ← readKeys k s1
      pure (a :: rest, s2)

/-- Modelled from the spec: the inverse direction of the scrypt-ts script
serialization (`BountyContract.fromLockingScript`), absent from the
repository sources; per the spec it fails (rather than throwing) on wrong
layout, fixed-size field misreads, or an approver list of the wrong
length. `decode` reads the fields of `encode`'s layout back and demands
the input be exactly consumed. -/
def decode (s : Bytes) : Option BountyParams := do
  let (creator, s1) ← readBytes 20 s
  let (owner, s2) ← readBytes 20 s1
  let (contrib, s3) ← readBytes 20 s2
  let (issue, s4) ← readVarBytes s3
  let (pr, s5) ← readVarBytes s4
  let (approvers, s6) ← readKeys N_APPROVERS s5
  let (dl, s7) ← readBytes 8 s6
  if s7 = [] then pure ⟨creator, owner, contrib, issue, pr, approvers, bytesToNatLE dl⟩
  else none

/-- Reading exactly the prefix one appended succeeds and leaves the
tail. -/
lemma readBytes_append (k : Nat) (xs rest : Bytes) (h : xs.length = k) :
    readBytes k (xs ++ rest) = some (xs, rest) := by
  subst h
  simp [readBytes, List.take_left, List.drop_left]

/-- A fixed-count read that consumes the whole input leaves nothing. -/
lemma readBytes_all (k : Nat) (xs : Bytes) (h : xs.length = k) :
    readBytes k xs = some (xs, []) := by
  have := readBytes_append k xs [] h
  simpa using this

/-- Reading back a flattened list of 33-byte keys recovers the list. -/
lemma readKeys_append (as : List Bytes) (rest : Bytes)
    (h : ∀ a ∈ as, a.length = 33) :
    readKeys as.length (as.flatten ++ rest) = some (as, rest) := by
  induction as with
  | nil => simp [readKeys]
  | cons a as ih =>
      have ha : a.length = 33 := h a (by simp)
      have hrest : ∀ b ∈ as, b.length = 33 := fun b hb => h b (by simp [hb])
      simp only [List.length_cons, List.flatten_cons, List.append_assoc, readKeys]
      rw [readBytes_append 33 a (as.flatten ++ rest) ha]
      simp [ih hrest]

/-- The little-endian byte encoding has the requested width. -/
lemma natToBytesLE_length (k n : Nat) : (natToBytesLE k n).length = k := by
  induction k generalizing n with
  | zero => rfl
  | succ k ih => simp [natToBytesLE, ih]

/-- Little-endian decoding inverts encoding below the width bound. -/
lemma bytesToNatLE_natToBytesLE (k n : Nat) (h : n < 256 ^ k) :
    bytesToNatLE (natToBytesLE k n) = n := by
  induction k generalizing n with
  | zero =>
      simp [natToBytesLE, bytesToNatLE]
      omega
  | succ k ih =>
      have hdiv : n / 256 < 256 ^ k := by
        rw [Nat.div_lt_iff_lt_mul (by norm_num)]
        calc n < 256 ^ (k + 1) := h
        _ = 256 ^ k * 256 := by ring
      simp [natToBytesLE, bytesToNatLE, ih (n / 256) hdiv]
      omega

/-- C6: decoding inverts encoding — for every valid parameter set
(correct fixed widths, `N_APPROVERS` approver keys, 64-bit deadline),
reconstructing the parameters from the encoded contract script recovers
exactly the original fields. -/
theorem decode_encode_roundtrip (p : BountyParams) (h : validParams p = true) :
    decode (encode p) = some p := by
  simp only [validParams, Bool.and_eq_true, beq_iff_eq, decide_eq_true_eq,
    List.all_eq_true] at h
  obtain ⟨⟨⟨⟨⟨⟨⟨h1, h2⟩, h3⟩, h4⟩, h5⟩, h6⟩, h7⟩, h8⟩ := h
  have h7x : ∀ a ∈ p.approvers, a.length = 33 := by
    intro a ha
    simpa using h7 a ha
  simp only [decode, encode, List.cons_append, ← h6]
  rw [readBytes_append _ _ _ h1]
  simp only [Option.bind_eq_bind, Option.some_bind]
  rw [readBytes_append _ _ _ h2]
  simp only [Option.bind_eq_bind, Option.some_bind]
  rw [readBytes_append _ _ _ h3]
  simp only [Option.bind_eq_bind, Option.some_bind, readVarBytes]
  rw [readBytes_append _ _ _ rfl]
  simp only [Option.bind_eq_bind, Option.some_bind]
  rw [readBytes_append _ _ _ rfl]
  simp only [Option.bind_eq_bind, Option.some_bind]
  rw [readKeys_append p.approvers _ h7x]
  simp only [Option.bind_eq_bind, Option.some_bind]
  rw [readBytes_all 8 _ (natToBytesLE_length 8 p.deadline)]
  simp [Option.pure_def, bytesToNatLE_natToBytesLE 8 p.deadline h8]

/-- A concrete valid parameter set for the codec witness. -/
def testParams : BountyParams where
  creatorAddr := List.replicate 20 1
  repoOwnerAddr := List.replicate 20 2
  contributorAddr := List.replicate 20 3
  issueId := [9]
  prId := []
  approvers := [List.replicate 33 4]
  deadline := 500

/-- Witness for C6: the concrete parameter set round-trips. -/
theorem decode_encode_roundtrip_witness :
    decode (encode testParams) = some testParams :=
  decode_encode_roundtrip testParams (by decide)
